import Mathlib

/-!
Verification of the streaming (websocket) subsystem of `hollaex-node-lib`.

The development shallowly embeds the websocket part of `src/kit.js`
(`HollaExKit.connect`, `disconnect`, `subscribe`, `unsubscribe`, and the
`open`/`close` transport handlers plus the reconnect timer) as pure Lean
functions over an explicit connection state, and proves properties of the
subscription-reconciliation algorithm, the connection state machine and the
authenticated URL builder.
-/

namespace Hollaex

/-! ## String helpers

`kit.js` manipulates subscription keys with `event.split(':')`,
`String.prototype.includes` and lodash's `union`.  We model these three
primitives over `List Char` so that everything evaluates by `decide`/`rfl`.
-/

/-- Does `l` start with `pat`?  (models the first position of
`String.prototype.includes`). -/
def leadsWith : List Char → List Char → Bool
  | [], _ => true
  | _ :: _, [] => false
  | p :: ps, c :: cs => p == c && leadsWith ps cs

/-- Does `pat` occur as a contiguous run inside `l`?  (models
`String.prototype.includes`). -/
def hasSubList (pat : List Char) : List Char → Bool
  | [] => leadsWith pat []
  | c :: cs => leadsWith pat (c :: cs) || hasSubList pat cs

/-- `s.includes(pat)` of JavaScript. -/
def containsSub (s pat : String) : Bool :=
  hasSubList pat.data s.data

/-- `str.split(':')` of JavaScript, on the character list.  Always returns a
non-empty list of parts. -/
def splitColon : List Char → List (List Char)
  | [] => [[]]
  | c :: cs =>
    if c = ':' then [] :: splitColon cs
    else
      match splitColon cs with
      | [] => [[c]]
      | p :: ps => (c :: p) :: ps

/-- The `topic` component of an event key: `event.split(':')[0]`. -/
def topicOf (e : String) : String :=
  String.mk ((splitColon e.data).headD [])

/-- The `symbol` component of an event key: `event.split(':')[1]`, collapsing
the two JavaScript falsy cases (`undefined` and `''`, both of which fail the
`if (symbol)` test in `kit.js`) to `none`. -/
def symbolOf (e : String) : Option String :=
  match splitColon e.data with
  | _ :: s :: _ => if s.isEmpty then none else some (String.mk s)
  | _ => none

/-- Helper for lodash `union`: keep the first occurrence of each element. -/
def uniqAux (seen : List String) : List String → List String
  | [] => []
  | x :: xs => if seen.contains x then uniqAux seen xs else x :: uniqAux (x :: seen) xs

/-- lodash `union(a, b)`: the deduplicated concatenation, first occurrences
kept in order. -/
def lunion (a b : List String) : List String :=
  uniqAux [] (a ++ b)

/-! ## Wire operations -/

/-- A single client→server wire operation. -/
inductive WireOp
  | sub (arg : String)
  | unsub (arg : String)
deriving DecidableEq, Repr

/-- Serialization of a wire op, as produced by `JSON.stringify` in
`kit.js` (`{"op":"subscribe","args":[arg]}` / `{"op":"unsubscribe","args":[arg]}`). -/
def WireOp.wire : WireOp → String
  | .sub a => "\x7b\"op\":\"subscribe\",\"args\":[\"" ++ a ++ "\"]\x7d"
  | .unsub a => "\x7b\"op\":\"unsubscribe\",\"args\":[\"" ++ a ++ "\"]\x7d"

/-- The heartbeat ping frame `JSON.stringify({ op: 'ping' })`. -/
def pingMessage : String := "\x7b\"op\":\"ping\"\x7d"

/-- The two filterable (symbol-scoped) topics of the `switch` in
`HollaExKit.subscribe`. -/
def isFilterableTopic (t : String) : Bool :=
  t == "orderbook" || t == "trade"

/-- The six private/global topics of the `switch` in `HollaExKit.subscribe`. -/
def isPrivateTopic (t : String) : Bool :=
  t == "order" || t == "usertrade" || t == "wallet" || t == "deposit" ||
    t == "withdrawal" || t == "admin"

/-! ## The reconciliation algorithm

`subscribeOne`/`unsubscribeOne` are the bodies of the `each` callbacks of
`HollaExKit.subscribe` / `HollaExKit.unsubscribe` in `kit.js`: they take the
current `this.wsEvents` (the desired set) and one requested event key, and
return the new `this.wsEvents` together with the wire ops sent.  `initial`
is `this.initialConnection`.
-/

/-- One iteration of the `each` loop of `HollaExKit.subscribe`. -/
def subscribeOne (initial : Bool) (D : List String) (ev : String) :
    List String × List WireOp :=
  if !(D.contains ev) || initial then
    let topic := topicOf ev
    if isFilterableTopic topic then
      match symbolOf ev with
      | some s =>
        if !(D.contains topic) then
          (if initial then D else lunion D [ev], [WireOp.sub (topic ++ ":" ++ s)])
        else (D, [])
      | none =>
        (if initial then D
         else lunion (D.filter (fun e => !(containsSub e (topic ++ ":")))) [ev],
         [WireOp.sub topic])
    else if isPrivateTopic topic then
      (if initial then D else lunion D [ev], [WireOp.sub topic])
    else (D, [])
  else (D, [])

/-- The whole `each` loop of `HollaExKit.subscribe` (the connectivity guard
lives in the state machine below). -/
def subscribeList (initial : Bool) (D : List String) (evs : List String) :
    List String × List WireOp :=
  evs.foldl
    (fun acc e =>
      let r := subscribeOne initial acc.1 e
      (r.1, acc.2 ++ r.2))
    (D, [])

/-- One iteration of the `each` loop of `HollaExKit.unsubscribe`.  Note the
`switch` in the source lists `order`, `wallet`, `deposit`, `withdrawal` and
`admin` but — unlike `subscribe` — not `usertrade`. -/
def unsubscribeOne (D : List String) (ev : String) : List String × List WireOp :=
  if D.contains ev then
    let topic := topicOf ev
    if isFilterableTopic topic then
      (D.filter (fun e => e != ev),
       [WireOp.unsub (match symbolOf ev with
         | some s => topic ++ ":" ++ s
         | none => topic)])
    else if topic == "order" || topic == "wallet" || topic == "deposit" ||
        topic == "withdrawal" || topic == "admin" then
      (D.filter (fun e => e != ev), [WireOp.unsub topic])
    else (D, [])
  else (D, [])

/-- The whole `each` loop of `HollaExKit.unsubscribe`. -/
def unsubscribeList (D : List String) (evs : List String) :
    List String × List WireOp :=
  evs.foldl
    (fun acc e =>
      let r := unsubscribeOne acc.1 e
      (r.1, acc.2 ++ r.2))
    (D, [])

/-! ## The connection state machine

The websocket connection of `HollaExKit` is event driven: the user calls
`connect` / `disconnect` / `subscribe` / `unsubscribe`, and the transport
delivers `open` / `close` events; a failure schedules `setTimeout(() =>
this.connect(this.wsEvents), 5000)`.  We model the instance fields that the
websocket code touches as a record and each event as a pure transition that
also emits a list of observable `Effect`s.  `readyState` of the `ws` handle
is modelled explicitly; `wsConnected()` is `ws && ws.readyState === OPEN`.
-/

/-- `WebSocket.readyState` values. -/
inductive RS
  | connecting
  | opened
  | closing
  | closed
deriving DecidableEq, Repr

/-- One physical websocket: its ready state and its `_events` listener table
(caller-registered handlers, abstracted to identifiers). -/
structure Socket where
  readyState : RS
  handlers : List Nat
deriving DecidableEq, Repr

/-- The fields of a `HollaExKit` instance that the websocket code reads or
writes. -/
structure KitState where
  ws : Option Socket
  wsEvents : List String
  wsReconnect : Bool
  initialConnection : Bool
  wsEventListeners : Option (List Nat)
  pendingTimers : Nat
deriving DecidableEq, Repr

/-- The constructor's initialization of the websocket fields
(`initialConnection` is not set by the constructor, i.e. it is undefined =
falsy, modelled as `false`; no reconnect timer is pending). -/
def initKitState : KitState :=
  { ws := none
    wsEvents := []
    wsReconnect := true
    initialConnection := false
    wsEventListeners := none
    pendingTimers := 0 }

/-- Errors thrown by the websocket methods: `new Error('Websocket not
connected')`. -/
inductive KitError
  | notConnected
deriving DecidableEq, Repr

/-- Observable effects of a transition. -/
inductive Effect
  | send (op : WireOp)
  | openSock
  | closeSock
  | startHB (pingMsg : String) (pingTimeout pingInterval : Nat)
  | errRaised (e : KitError)
deriving DecidableEq, Repr

/-- `this.wsConnected()`: `this.ws && this.ws.readyState === WebSocket.OPEN`. -/
def wsConnectedB (st : KitState) : Bool :=
  match st.ws with
  | some s => s.readyState == RS.opened
  | none => false

/-- `HollaExKit.connect(events)`: set the flags, store the requested events,
and create a new `WebSocket` (transplanting the saved `_events` table when one
was stashed by a previous failure). -/
def connectStep (st : KitState) (evs : List String) : KitState × List Effect :=
  ({ st with
      wsReconnect := true
      wsEvents := evs
      initialConnection := true
      ws := some { readyState := RS.connecting, handlers := st.wsEventListeners.getD [] } },
   [Effect.openSock])

/-- The `'close'` handler installed by `connect`: when `wsReconnect` is set,
stash the listener table and schedule a reconnect timer; otherwise drop
everything. -/
def closeStep (st : KitState) : KitState :=
  match st.ws with
  | some s =>
    if st.wsReconnect then
      { st with
          wsEventListeners := some s.handlers
          ws := none
          pendingTimers := st.pendingTimers + 1 }
    else
      { st with wsEventListeners := none, ws := none }
  | none => st

/-- The `'open'` handler installed by `connect`: the socket becomes OPEN, the
stored events are replayed through `subscribe` (with `initialConnection`
still set), `initialConnection` is cleared, and `setWsHeartbeat` is started
with the ping frame, `pingTimeout: 60000` and `pingInterval: 25000`. -/
def openStep (st : KitState) : KitState × List Effect :=
  match st.ws with
  | some s =>
    if s.readyState = RS.connecting then
      let st0 := { st with ws := some { s with readyState := RS.opened } }
      let r :=
        if st0.wsEvents.length > 0 then
          subscribeList st0.initialConnection st0.wsEvents st0.wsEvents
        else (st0.wsEvents, [])
      ({ st0 with wsEvents := r.1, initialConnection := false },
       r.2.map Effect.send ++ [Effect.startHB pingMessage 60000 25000])
    else (st, [])
  | none => (st, [])

/-- `HollaExKit.disconnect()`: only legal when `wsConnected()`; clears
`wsReconnect` and calls `ws.close()` (the socket moves to CLOSING; the
`'close'` event arrives later). -/
def disconnectStep (st : KitState) : KitState × List Effect :=
  if wsConnectedB st then
    match st.ws with
    | some s =>
      ({ st with wsReconnect := false, ws := some { s with readyState := RS.closing } },
       [Effect.closeSock])
    | none => (st, [Effect.errRaised KitError.notConnected])
  else (st, [Effect.errRaised KitError.notConnected])

/-- The reconnect timer callback `() => this.connect(this.wsEvents)`: it
fires only while scheduled, and calls `connect` with the current desired
set — with no check of `wsReconnect` or of any generation counter. -/
def timerStep (st : KitState) : KitState × List Effect :=
  if st.pendingTimers > 0 then
    connectStep { st with pendingTimers := st.pendingTimers - 1 } st.wsEvents
  else (st, [])

/-- External events driving a `HollaExKit` instance. -/
inductive Ev
  | connect (evs : List String)
  | disconnect
  | subscribe (evs : List String)
  | unsubscribe (evs : List String)
  | register (h : Nat)
  | wsOpen
  | wsClose
  | timerFire

/-- One step of the machine. -/
def step (st : KitState) : Ev → KitState × List Effect
  | .connect evs => connectStep st evs
  | .disconnect => disconnectStep st
  | .subscribe evs =>
    if wsConnectedB st then
      let r := subscribeList st.initialConnection st.wsEvents evs
      ({ st with wsEvents := r.1 }, r.2.map Effect.send)
    else (st, [Effect.errRaised KitError.notConnected])
  | .unsubscribe evs =>
    if wsConnectedB st then
      let r := unsubscribeList st.wsEvents evs
      ({ st with wsEvents := r.1 }, r.2.map Effect.send)
    else (st, [Effect.errRaised KitError.notConnected])
  | .register h =>
    match st.ws with
    | some s => ({ st with ws := some { s with handlers := s.handlers ++ [h] } }, [])
    | none => (st, [])
  | .wsOpen => openStep st
  | .wsClose => (closeStep st, [])
  | .timerFire => timerStep st

/-- Run a sequence of events, accumulating the emitted effects. -/
def run (st : KitState) : List Ev → KitState × List Effect
  | [] => (st, [])
  | e :: es =>
    let r := step st e
    let r2 := run r.1 es
    (r2.1, r.2 ++ r2.2)

/-- The listener table an inbound frame is dispatched to (the `_events` of
the live socket). -/
def receivers (st : KitState) : List Nat :=
  match st.ws with
  | some s => s.handlers
  | none => []

/-! ## Authenticated URL construction (`connect`, lines 2089–2100) -/

/-- `opts.apiExpiresAfter || 60` of the constructor: JavaScript `||` takes
the right operand on any falsy left operand (`undefined` or `0`). -/
def defaultOr60 (o : Option Nat) : Nat :=
  match o with
  | some n => if n == 0 then 60 else n
  | none => 60

/-- The stream URL computed by `connect`: when both `apiKey` and `apiSecret`
are truthy (non-empty), sign `(secret, 'CONNECT', '/stream', apiExpires)`
with `apiExpires = moment().unix() + this.apiExpiresAfter` and append the
three query parameters; otherwise use the bare `wsUrl`.  The signature
primitive `createSignature` is an external collaborator, passed in
abstractly. -/
def buildWsUrl (sign : String → String → String → Nat → String)
    (wsUrl apiKey apiSecret : String) (nowUnix expiresAfter : Nat) : String :=
  if apiKey != "" && apiSecret != "" then
    let apiExpires := nowUnix + expiresAfter
    let signature := sign apiSecret "CONNECT" "/stream" apiExpires
    wsUrl ++ "?api-key=" ++ apiKey ++ "&api-signature=" ++ signature ++
      "&api-expires=" ++ toString apiExpires
  else wsUrl

/-! ## Heartbeat model -/

/-- The options record passed to `setWsHeartbeat`. -/
structure HBConfig where
  pingMsg : String
  pingTimeout : Nat
  pingInterval : Nat
deriving DecidableEq, Repr

/-- The configuration the `'open'` handler passes to `setWsHeartbeat`. -/
def kitHBConfig : HBConfig :=
  { pingMsg := pingMessage, pingTimeout := 60000, pingInterval := 25000 }

/-- Modelled from the spec: the external `ws-heartbeat` client library sends
the configured ping frame periodically; `hbPingAt cfg k` is the time (ms
after open) of the `k`-th ping, one every `pingInterval`. -/
def hbPingAt (cfg : HBConfig) (k : Nat) : Nat :=
  cfg.pingInterval * (k + 1)

/-- Modelled from the spec: the external `ws-heartbeat` client library tears
the session down when no liveness response arrives within `pingTimeout` of
the most recent ping; given the time of the most recent ping and the times
of observed liveness responses, this returns the teardown instant (`none`
when a response arrived in the window). -/
def hbTearDownAt (cfg : HBConfig) (lastPing : Nat) (pongs : List Nat) : Option Nat :=
  if pongs.any (fun p => lastPing < p && p ≤ lastPing + cfg.pingTimeout) then none
  else some (lastPing + cfg.pingTimeout)

/-! ## The bare/scoped invariant -/

/-- `e` is a symbol-scoped key for topic `t`: canonical form `t ++ ":" ++ s`
with a non-empty symbol `s` (a symbol, being a trading-pair identifier,
contains no `':'`, so the key splits into exactly two parts). -/
def isScoped (t e : String) : Bool :=
  match splitColon e.data with
  | [a, s] => a == t.data && !s.isEmpty
  | _ => false

/-- Does the desired set simultaneously hold the bare key and a symbol-scoped
key of the same filterable topic? -/
def hasClash (l : List String) : Bool :=
  (["orderbook", "trade"]).any fun t => l.contains t && l.any (fun e => isScoped t e)

/-- The keys of `l` that belong to topic `t`: the bare key and the
symbol-scoped keys. -/
def keysFor (t : String) (l : List String) : List String :=
  l.filter (fun e => e == t || isScoped t e)

/-- A trace is well-formed when every explicit `connect` call passes a topic
list that does not itself clash (the transitions themselves never introduce
a clash, see `c5_invariant_amended`). -/
def goodTrace (tr : List Ev) : Bool :=
  tr.all fun e =>
    match e with
    | .connect evs => !(hasClash evs)
    | _ => true

/-! ## Basic lemmas about the helpers -/

theorem contains_iff (l : List String) (x : String) : l.contains x = true ↔ x ∈ l := by
  simp [List.contains, List.elem_iff]

theorem mem_uniqAux (seen l : List String) (x : String) :
    x ∈ uniqAux seen l ↔ x ∈ l ∧ x ∉ seen := by
  induction l generalizing seen with
  | nil => simp [uniqAux]
  | cons a as ih =>
    rw [uniqAux]
    by_cases h : seen.contains a = true
    · rw [if_pos h, ih]
      have hmem := (contains_iff seen a).1 h
      constructor
      · rintro ⟨hx, hs⟩
        exact ⟨List.mem_cons.2 (Or.inr hx), hs⟩
      · rintro ⟨hx, hs⟩
        rcases List.mem_cons.1 hx with rfl | hx'
        · exact absurd hmem hs
        · exact ⟨hx', hs⟩
    · rw [if_neg h]
      have hnm : a ∉ seen := fun hh => h ((contains_iff seen a).2 hh)
      constructor
      · intro hx
        rcases List.mem_cons.1 hx with rfl | hx'
        · exact ⟨List.mem_cons_self _ _, hnm⟩
        · rcases (ih (a :: seen)).1 hx' with ⟨h1, h2⟩
          exact ⟨List.mem_cons.2 (Or.inr h1), fun hh => h2 (List.mem_cons.2 (Or.inr hh))⟩
      · rintro ⟨hx, hs⟩
        rcases List.mem_cons.1 hx with rfl | hx'
        · exact List.mem_cons_self _ _
        · by_cases hax : x = a
          · subst hax
            exact List.mem_cons_self _ _
          · refine List.mem_cons.2 (Or.inr ((ih (a :: seen)).2 ⟨hx', fun hh => ?_⟩))
            rcases List.mem_cons.1 hh with h' | h'
            · exact hax h'
            · exact hs h'

theorem mem_lunion (a b : List String) (x : String) :
    x ∈ lunion a b ↔ x ∈ a ∨ x ∈ b := by
  simp [lunion, mem_uniqAux]

theorem nodup_uniqAux (seen l : List String) : (uniqAux seen l).Nodup := by
  induction l generalizing seen with
  | nil => simp [uniqAux]
  | cons a as ih =>
    rw [uniqAux]
    by_cases h : seen.contains a = true
    · rw [if_pos h]
      exact ih seen
    · rw [if_neg h]
      refine List.nodup_cons.2 ⟨fun hmem => ?_, ih (a :: seen)⟩
      exact ((mem_uniqAux _ _ _).1 hmem).2 (List.mem_cons_self _ _)

theorem nodup_lunion (a b : List String) : (lunion a b).Nodup :=
  nodup_uniqAux [] (a ++ b)

theorem filter_eq_single (p : String → Bool) (l : List String) (x : String)
    (hnd : l.Nodup) (hx : x ∈ l) (hp : ∀ e ∈ l, p e = true ↔ e = x) :
    l.filter p = [x] := by
  induction l with
  | nil => cases hx
  | cons a as ih =>
    rcases List.nodup_cons.1 hnd with ⟨ha, hnd'⟩
    by_cases hpa : p a = true
    · have hax : a = x := (hp a (List.mem_cons_self _ _)).1 hpa
      subst hax
      have : as.filter p = [] := by
        rw [List.filter_eq_nil_iff]
        intro e he hpe
        exact ha (((hp e (List.mem_cons.2 (Or.inr he))).1 hpe) ▸ he)
      simp [List.filter_cons, hpa, this]
    · have hax : a ≠ x := fun hh => hpa ((hp a (List.mem_cons_self _ _)).2 hh)
      have hx' : x ∈ as := by
        rcases List.mem_cons.1 hx with h' | h'
        · exact absurd h'.symm hax
        · exact h'
      have := ih hnd' hx' (fun e he => hp e (List.mem_cons.2 (Or.inr he)))
      simp [List.filter_cons, hpa, this]

/-! ## Lemmas about `splitColon` and the key shapes -/

theorem splitColon_ne_nil (l : List Char) : splitColon l ≠ [] := by
  induction l with
  | nil => simp [splitColon]
  | cons c cs ih =>
    by_cases h : c = ':'
    · simp [splitColon, h]
    · rw [splitColon, if_neg h]
      cases hs : splitColon cs with
      | nil => simp
      | cons p ps => simp

theorem splitColon_single (l x : List Char) (h : splitColon l = [x]) : l = x := by
  induction l generalizing x with
  | nil => simpa [splitColon] using h.symm
  | cons c cs ih =>
    by_cases hc : c = ':'
    · rw [splitColon, if_pos hc] at h
      injection h with h1 h2
      exact absurd h2 (splitColon_ne_nil cs)
    · rw [splitColon, if_neg hc] at h
      cases hs : splitColon cs with
      | nil => exact absurd hs (splitColon_ne_nil cs)
      | cons p ps =>
        rw [hs] at h
        injection h with h1 h2
        subst h2
        rw [← h1, ih p hs]

theorem splitColon_pair (l a s : List Char) (h : splitColon l = [a, s]) :
    l = a ++ ':' :: s := by
  induction l generalizing a with
  | nil => simp [splitColon] at h
  | cons c cs ih =>
    by_cases hc : c = ':'
    · rw [splitColon, if_pos hc] at h
      injection h with h1 h2
      subst h1 hc
      rw [splitColon_single cs s h2]
      rfl
    · rw [splitColon, if_neg hc] at h
      cases hs : splitColon cs with
      | nil => exact absurd hs (splitColon_ne_nil cs)
      | cons p ps =>
        rw [hs] at h
        injection h with h1 h2
        subst h1
        have := ih p (by rw [hs, h2])
        rw [this]
        rfl

theorem leadsWith_append_cons (a : List Char) (c : Char) (r : List Char) :
    leadsWith (a ++ [c]) (a ++ c :: r) = true := by
  induction a with
  | nil => simp [leadsWith]
  | cons x xs ih => simp [leadsWith, ih]

theorem hasSubList_of_leads (pat l : List Char) (h : leadsWith pat l = true) :
    hasSubList pat l = true := by
  cases l with
  | nil => exact h
  | cons c cs => simp [hasSubList, h]

theorem data_append (a b : String) : (a ++ b).data = a.data ++ b.data := by
  cases a
  cases b
  rfl

theorem isScoped_split (t e : String) (h : isScoped t e = true) :
    ∃ s, splitColon e.data = [t.data, s] ∧ s ≠ [] := by
  unfold isScoped at h
  cases hs : splitColon e.data with
  | nil => rw [hs] at h; cases h
  | cons a rest =>
    cases rest with
    | nil => rw [hs] at h; cases h
    | cons s rest2 =>
      cases rest2 with
      | nil =>
        rw [hs, Bool.and_eq_true] at h
        obtain ⟨h1, h2⟩ := h
        have ha : a = t.data := by simpa using h1
        refine ⟨s, by rw [ha], fun hnil => ?_⟩
        subst hnil
        simp at h2
      | cons u us => rw [hs] at h; cases h

theorem isScoped_topicOf (t e : String) (h : isScoped t e = true) : topicOf e = t := by
  obtain ⟨s, hs, -⟩ := isScoped_split t e h
  unfold topicOf
  rw [hs]
  rfl

theorem isScoped_symbolOf (t e : String) (h : isScoped t e = true) :
    symbolOf e = some (String.mk ((splitColon e.data).getD 1 [])) := by
  obtain ⟨s, hs, hne⟩ := isScoped_split t e h
  unfold symbolOf
  rw [hs]
  simp [List.isEmpty_iff, hne]

theorem isScoped_containsSub (t e : String) (h : isScoped t e = true) :
    containsSub e (t ++ ":") = true := by
  obtain ⟨s, hs, -⟩ := isScoped_split t e h
  have he : e.data = t.data ++ ':' :: s := splitColon_pair _ _ _ hs
  unfold containsSub
  rw [data_append, he]
  exact hasSubList_of_leads _ _ (leadsWith_append_cons t.data ':' s)

theorem filterable_iff (t : String) :
    isFilterableTopic t = true ↔ t = "orderbook" ∨ t = "trade" := by
  simp [isFilterableTopic]

theorem private_iff (t : String) :
    isPrivateTopic t = true ↔
      t = "order" ∨ t = "usertrade" ∨ t = "wallet" ∨ t = "deposit" ∨
        t = "withdrawal" ∨ t = "admin" := by
  simp [isPrivateTopic, or_assoc]

theorem filterable_facts (t : String) (h : isFilterableTopic t = true) :
    topicOf t = t ∧ symbolOf t = none ∧ isPrivateTopic t = false := by
  rcases (filterable_iff t).1 h with rfl | rfl <;> exact ⟨by decide, by decide, by decide⟩

theorem private_facts (t : String) (h : isPrivateTopic t = true) :
    topicOf t = t ∧ symbolOf t = none ∧ isFilterableTopic t = false := by
  rcases (private_iff t).1 h with rfl | rfl | rfl | rfl | rfl | rfl <;>
    exact ⟨by decide, by decide, by decide⟩

/-! ## The no-clash invariant as a proposition -/

/-- Propositional form of `hasClash _ = false`. -/
def NoClash (l : List String) : Prop :=
  ∀ t, isFilterableTopic t = true → t ∈ l → ∀ e ∈ l, isScoped t e = false

theorem noClash_of_hasClash (l : List String) (h : hasClash l = false) : NoClash l := by
  intro t ht htl e hel
  by_contra hsc
  rw [Bool.not_eq_false] at hsc
  have hcl : hasClash l = true := by
    unfold hasClash
    rw [List.any_eq_true]
    refine ⟨t, ?_, ?_⟩
    · rcases (filterable_iff t).1 ht with rfl | rfl <;> simp
    · rw [Bool.and_eq_true, contains_iff, List.any_eq_true]
      exact ⟨htl, e, hel, hsc⟩
  rw [h] at hcl
  cases hcl

theorem hasClash_eq_false (l : List String) (h : NoClash l) : hasClash l = false := by
  rw [← Bool.not_eq_true]
  intro hc
  unfold hasClash at hc
  rw [List.any_eq_true] at hc
  obtain ⟨t, htmem, hrest⟩ := hc
  rw [Bool.and_eq_true, contains_iff, List.any_eq_true] at hrest
  obtain ⟨htl, e, hel, hsc⟩ := hrest
  have ht : isFilterableTopic t = true := by
    simp only [List.mem_cons, List.not_mem_nil, or_false] at htmem
    rcases htmem with rfl | rfl <;> decide
  rw [h t ht htl e hel] at hsc
  cases hsc

theorem contains_eq_false_iff (l : List String) (x : String) :
    l.contains x = false ↔ x ∉ l := by
  rw [← contains_iff]
  cases l.contains x <;> simp

/-! ## Branch equations for `subscribeOne` -/

theorem subscribeOne_skip (D : List String) (ev : String) (hev : ev ∈ D) :
    subscribeOne false D ev = (D, []) := by
  simp [subscribeOne, hev]

theorem subscribeOne_scoped_emit (initial : Bool) (D : List String) (ev s : String)
    (h0 : ev ∉ D ∨ initial = true)
    (hfil : isFilterableTopic (topicOf ev) = true)
    (hsym : symbolOf ev = some s)
    (htop : topicOf ev ∉ D) :
    subscribeOne initial D ev =
      (if initial then D else lunion D [ev], [WireOp.sub (topicOf ev ++ ":" ++ s)]) := by
  rcases h0 with h0 | h0 <;> simp [subscribeOne, h0, hfil, hsym, htop]

theorem subscribeOne_scoped_skip (initial : Bool) (D : List String) (ev s : String)
    (h0 : ev ∉ D ∨ initial = true)
    (hfil : isFilterableTopic (topicOf ev) = true)
    (hsym : symbolOf ev = some s)
    (htop : topicOf ev ∈ D) :
    subscribeOne initial D ev = (D, []) := by
  rcases h0 with h0 | h0 <;> simp [subscribeOne, h0, hfil, hsym, htop]

theorem subscribeOne_bare (initial : Bool) (D : List String) (ev : String)
    (h0 : ev ∉ D ∨ initial = true)
    (hfil : isFilterableTopic (topicOf ev) = true)
    (hsym : symbolOf ev = none) :
    subscribeOne initial D ev =
      (if initial then D
       else lunion (D.filter (fun e => !(containsSub e (topicOf ev ++ ":")))) [ev],
       [WireOp.sub (topicOf ev)]) := by
  rcases h0 with h0 | h0 <;> simp [subscribeOne, h0, hfil, hsym]

theorem subscribeOne_private (initial : Bool) (D : List String) (ev : String)
    (h0 : ev ∉ D ∨ initial = true)
    (hfil : isFilterableTopic (topicOf ev) = false)
    (hpriv : isPrivateTopic (topicOf ev) = true) :
    subscribeOne initial D ev =
      (if initial then D else lunion D [ev], [WireOp.sub (topicOf ev)]) := by
  rcases h0 with h0 | h0 <;> simp [subscribeOne, h0, hfil, hpriv]

theorem subscribeOne_unknown (initial : Bool) (D : List String) (ev : String)
    (h0 : ev ∉ D ∨ initial = true)
    (hfil : isFilterableTopic (topicOf ev) = false)
    (hpriv : isPrivateTopic (topicOf ev) = false) :
    subscribeOne initial D ev = (D, []) := by
  rcases h0 with h0 | h0 <;> simp [subscribeOne, h0, hfil, hpriv]

/-! ## Preservation of the no-clash invariant -/

theorem noClash_subset (A B : List String) (hsub : ∀ x, x ∈ A → x ∈ B)
    (h : NoClash B) : NoClash A :=
  fun t ht htl e hel => h t ht (hsub _ htl) e (hsub _ hel)

theorem noClash_insert_scoped (D : List String) (ev s : String)
    (hsym : symbolOf ev = some s)
    (htop : topicOf ev ∉ D)
    (h : NoClash D) : NoClash (lunion D [ev]) := by
  intro t ht htl e hel
  rw [Bool.eq_false_iff]
  intro hsc
  rcases (mem_lunion _ _ _).1 htl with htD | htev
  · rcases (mem_lunion _ _ _).1 hel with heD | heev
    · rw [h t ht htD e heD] at hsc
      cases hsc
    · have he : e = ev := by simpa using heev
      subst he
      have h1 : topicOf e = t := isScoped_topicOf t e hsc
      exact htop (h1 ▸ htD)
  · have hte : t = ev := by simpa using htev
    have h2 := (filterable_facts t ht).2.1
    rw [hte, hsym] at h2
    cases h2

theorem noClash_insert_bare (D : List String) (ev : String)
    (hfil : isFilterableTopic (topicOf ev) = true)
    (hsym : symbolOf ev = none)
    (h : NoClash D) :
    NoClash (lunion (D.filter (fun e => !(containsSub e (topicOf ev ++ ":")))) [ev]) := by
  intro t ht htl e hel
  rw [Bool.eq_false_iff]
  intro hsc
  rcases (mem_lunion _ _ _).1 hel with heF | heev
  · have heD := (List.mem_filter.1 heF).1
    have hkeep := (List.mem_filter.1 heF).2
    by_cases htt : t = topicOf ev
    · rw [← htt] at hkeep
      rw [isScoped_containsSub t e hsc] at hkeep
      cases hkeep
    · rcases (mem_lunion _ _ _).1 htl with htF | htev
      · rw [h t ht (List.mem_filter.1 htF).1 e heD] at hsc
        cases hsc
      · have hte : t = ev := by simpa using htev
        exact htt (by rw [← hte, (filterable_facts t ht).1])
  · have he : e = ev := by simpa using heev
    subst he
    have h1 := isScoped_symbolOf t e hsc
    rw [hsym] at h1
    cases h1

theorem noClash_insert_private (D : List String) (ev : String)
    (hpriv : isPrivateTopic (topicOf ev) = true)
    (h : NoClash D) : NoClash (lunion D [ev]) := by
  intro t ht htl e hel
  rw [Bool.eq_false_iff]
  intro hsc
  have htf : isFilterableTopic (topicOf ev) = false := (private_facts _ hpriv).2.2
  rcases (mem_lunion _ _ _).1 hel with heD | heev
  · rcases (mem_lunion _ _ _).1 htl with htD | htev
    · rw [h t ht htD e heD] at hsc
      cases hsc
    · have hte : t = ev := by simpa using htev
      have h1 : topicOf ev = t := by rw [← hte, (filterable_facts t ht).1]
      rw [h1, ht] at htf
      cases htf
  · have he : e = ev := by simpa using heev
    subst he
    have h1 : topicOf e = t := isScoped_topicOf t e hsc
    rw [h1, ht] at htf
    cases htf

theorem noClash_entered (initial : Bool) (D : List String) (ev : String)
    (h : NoClash D) (h0 : ev ∉ D ∨ initial = true) :
    NoClash (subscribeOne initial D ev).1 := by
  by_cases hfil : isFilterableTopic (topicOf ev) = true
  · cases hsym : symbolOf ev with
    | some s =>
      by_cases htop : topicOf ev ∈ D
      · rw [subscribeOne_scoped_skip initial D ev s h0 hfil hsym htop]
        exact h
      · rw [subscribeOne_scoped_emit initial D ev s h0 hfil hsym htop]
        cases initial
        · simpa using noClash_insert_scoped D ev s hsym htop h
        · simpa using h
    | none =>
      rw [subscribeOne_bare initial D ev h0 hfil hsym]
      cases initial
      · simpa using noClash_insert_bare D ev hfil hsym h
      · simpa using h
  · have hfil' : isFilterableTopic (topicOf ev) = false := by
      cases hc : isFilterableTopic (topicOf ev)
      · rfl
      · exact absurd hc hfil
    by_cases hpriv : isPrivateTopic (topicOf ev) = true
    · rw [subscribeOne_private initial D ev h0 hfil' hpriv]
      cases initial
      · simpa using noClash_insert_private D ev hpriv h
      · simpa using h
    · have hpriv' : isPrivateTopic (topicOf ev) = false := by
        cases hc : isPrivateTopic (topicOf ev)
        · rfl
        · exact absurd hc hpriv
      rw [subscribeOne_unknown initial D ev h0 hfil' hpriv']
      exact h

theorem noClash_subscribeOne (initial : Bool) (D : List String) (ev : String)
    (h : NoClash D) : NoClash (subscribeOne initial D ev).1 := by
  by_cases hev : ev ∈ D
  · cases initial with
    | true => exact noClash_entered true D ev h (Or.inr rfl)
    | false =>
      rw [subscribeOne_skip D ev hev]
      exact h
  · exact noClash_entered initial D ev h (Or.inl hev)

/-! ## Unfolding the fold loops -/

theorem subscribeList_acc (initial : Bool) (evs : List String) :
    ∀ (D : List String) (acc : List WireOp),
      evs.foldl
        (fun acc e =>
          let r := subscribeOne initial acc.1 e
          (r.1, acc.2 ++ r.2))
        (D, acc)
      = ((subscribeList initial D evs).1, acc ++ (subscribeList initial D evs).2) := by
  induction evs with
  | nil => intro D acc; simp [subscribeList]
  | cons e es ih =>
    intro D acc
    simp only [subscribeList, List.foldl_cons]
    rw [ih, ih]
    simp

theorem subscribeList_cons (initial : Bool) (D : List String) (e : String)
    (es : List String) :
    subscribeList initial D (e :: es) =
      ((subscribeList initial (subscribeOne initial D e).1 es).1,
        (subscribeOne initial D e).2 ++
          (subscribeList initial (subscribeOne initial D e).1 es).2) := by
  rw [subscribeList, List.foldl_cons]
  simpa using subscribeList_acc initial es (subscribeOne initial D e).1 (subscribeOne initial D e).2

theorem unsubscribeList_acc (evs : List String) :
    ∀ (D : List String) (acc : List WireOp),
      evs.foldl
        (fun acc e =>
          let r := unsubscribeOne acc.1 e
          (r.1, acc.2 ++ r.2))
        (D, acc)
      = ((unsubscribeList D evs).1, acc ++ (unsubscribeList D evs).2) := by
  induction evs with
  | nil => intro D acc; simp [unsubscribeList]
  | cons e es ih =>
    intro D acc
    simp only [unsubscribeList, List.foldl_cons]
    rw [ih, ih]
    simp

theorem unsubscribeList_cons (D : List String) (e : String) (es : List String) :
    unsubscribeList D (e :: es) =
      ((unsubscribeList (unsubscribeOne D e).1 es).1,
        (unsubscribeOne D e).2 ++ (unsubscribeList (unsubscribeOne D e).1 es).2) := by
  rw [unsubscribeList, List.foldl_cons]
  simpa using unsubscribeList_acc es (unsubscribeOne D e).1 (unsubscribeOne D e).2

theorem noClash_subscribeList (initial : Bool) (evs : List String) :
    ∀ D : List String, NoClash D → NoClash (subscribeList initial D evs).1 := by
  induction evs with
  | nil => intro D h; exact h
  | cons e es ih =>
    intro D h
    rw [subscribeList_cons]
    exact ih _ (noClash_subscribeOne initial D e h)

theorem unsubscribeOne_fst (D : List String) (ev : String) :
    (unsubscribeOne D ev).1 = D ∨
      (unsubscribeOne D ev).1 = D.filter (fun e => e != ev) := by
  simp only [unsubscribeOne]
  split
  · split
    · right
      rfl
    · split
      · right
        rfl
      · left
        rfl
  · left
    rfl

theorem unsubscribeOne_fst_subset (D : List String) (ev : String) (x : String)
    (hx : x ∈ (unsubscribeOne D ev).1) : x ∈ D := by
  rcases unsubscribeOne_fst D ev with h | h <;> rw [h] at hx
  · exact hx
  · exact (List.mem_filter.1 hx).1

theorem noClash_unsubscribeList (evs : List String) :
    ∀ D : List String, NoClash D → NoClash (unsubscribeList D evs).1 := by
  induction evs with
  | nil => intro D h; exact h
  | cons e es ih =>
    intro D h
    rw [unsubscribeList_cons]
    exact ih _ (noClash_subset _ _ (unsubscribeOne_fst_subset D e) h)

/-! ## Invariant preservation by the state machine -/

theorem closeStep_wsEvents (st : KitState) : (closeStep st).wsEvents = st.wsEvents := by
  unfold closeStep
  split
  · split <;> rfl
  · rfl

theorem disconnectStep_wsEvents (st : KitState) :
    ((disconnectStep st).1).wsEvents = st.wsEvents := by
  unfold disconnectStep
  split
  · split <;> rfl
  · rfl

theorem noClash_step (st : KitState) (e : Ev) (h : NoClash st.wsEvents)
    (hg : ∀ evs, e = Ev.connect evs → hasClash evs = false) :
    NoClash ((step st e).1).wsEvents := by
  cases e with
  | connect evs => exact noClash_of_hasClash evs (hg evs rfl)
  | disconnect =>
    simp only [step, disconnectStep_wsEvents]
    exact h
  | subscribe evs =>
    simp only [step]
    split
    · exact noClash_subscribeList st.initialConnection evs st.wsEvents h
    · exact h
  | unsubscribe evs =>
    simp only [step]
    split
    · exact noClash_unsubscribeList evs st.wsEvents h
    · exact h
  | register hd =>
    cases hws : st.ws with
    | some s =>
      simp only [step, hws]
      exact h
    | none =>
      simp only [step, hws]
      exact h
  | wsOpen =>
    cases hws : st.ws with
    | none =>
      simp only [step, openStep, hws]
      exact h
    | some s =>
      simp only [step, openStep, hws]
      split
      · split
        · exact noClash_subscribeList st.initialConnection st.wsEvents st.wsEvents h
        · exact h
      · exact h
  | wsClose =>
    simp only [step]
    exact closeStep_wsEvents st ▸ h
  | timerFire =>
    simp only [step, timerStep]
    split
    · exact h
    · exact h

theorem noClash_run (tr : List Ev) :
    ∀ st : KitState, NoClash st.wsEvents → goodTrace tr = true →
      NoClash ((run st tr).1).wsEvents := by
  induction tr with
  | nil => intro st h _; exact h
  | cons e es ih =>
    intro st h hg
    rw [goodTrace, List.all_cons, Bool.and_eq_true] at hg
    obtain ⟨hg1, hg2⟩ := hg
    have hstep : NoClash ((step st e).1).wsEvents := by
      apply noClash_step st e h
      intro evs heq
      subst heq
      simpa using hg1
    exact ih _ hstep hg2

/-! ## The connect-time replay -/

/-- Modelled from the spec (§4.1, with the bare-dominance check kept during
replay, as forced by `c6_counterexample`): the wire op the connect-time
replay emits for one key of the replay set.  A key with a known topic
produces its subscribe op unless it is symbol-scoped and the bare topic is
also in the desired set; unknown topics are ignored. -/
def replaySpecOp (D : List String) (e : String) : Option WireOp :=
  if isFilterableTopic (topicOf e) then
    match symbolOf e with
    | some s =>
      if D.contains (topicOf e) then none
      else some (WireOp.sub (topicOf e ++ ":" ++ s))
    | none => some (WireOp.sub (topicOf e))
  else if isPrivateTopic (topicOf e) then some (WireOp.sub (topicOf e))
  else none

theorem subscribeOne_replay (D : List String) (e : String) :
    subscribeOne true D e = (D, (replaySpecOp D e).toList) := by
  by_cases hfil : isFilterableTopic (topicOf e) = true
  · cases hsym : symbolOf e with
    | some s =>
      by_cases htop : topicOf e ∈ D
      · rw [subscribeOne_scoped_skip true D e s (Or.inr rfl) hfil hsym htop]
        simp [replaySpecOp, hfil, hsym, htop]
      · rw [subscribeOne_scoped_emit true D e s (Or.inr rfl) hfil hsym htop]
        simp [replaySpecOp, hfil, hsym, htop]
    | none =>
      rw [subscribeOne_bare true D e (Or.inr rfl) hfil hsym]
      simp [replaySpecOp, hfil, hsym]
  · have hfil' : isFilterableTopic (topicOf e) = false := by
      cases hc : isFilterableTopic (topicOf e)
      · rfl
      · exact absurd hc hfil
    by_cases hpriv : isPrivateTopic (topicOf e) = true
    · rw [subscribeOne_private true D e (Or.inr rfl) hfil' hpriv]
      simp [replaySpecOp, hfil', hpriv]
    · have hpriv' : isPrivateTopic (topicOf e) = false := by
        cases hc : isPrivateTopic (topicOf e)
        · rfl
        · exact absurd hc hpriv
      rw [subscribeOne_unknown true D e (Or.inr rfl) hfil' hpriv']
      simp [replaySpecOp, hfil', hpriv']

theorem subscribeList_replay (D evs : List String) :
    subscribeList true D evs = (D, evs.filterMap (replaySpecOp D)) := by
  induction evs with
  | nil => simp [subscribeList]
  | cons e es ih =>
    rw [subscribeList_cons, subscribeOne_replay D e]
    dsimp only
    rw [ih]
    dsimp only
    cases hro : replaySpecOp D e <;> simp [hro, List.filterMap_cons]

/-- The full effect of the `'open'` handler when a connecting socket opens
with `initialConnection` set (which `connect` always arranges): the desired
set is left unchanged and the replay ops followed by the heartbeat start are
emitted. -/
theorem openStep_eq (st : KitState) (s : Socket) (hws : st.ws = some s)
    (hrs : s.readyState = RS.connecting) (hini : st.initialConnection = true) :
    openStep st =
      ({ st with ws := some { s with readyState := RS.opened },
                 initialConnection := false },
       (st.wsEvents.filterMap (replaySpecOp st.wsEvents)).map Effect.send ++
         [Effect.startHB pingMessage 60000 25000]) := by
  by_cases hlen : st.wsEvents.length > 0
  · simp [openStep, hws, hrs, hini, hlen, subscribeList_replay]
  · have hnil : st.wsEvents = [] := List.length_eq_zero.1 (Nat.eq_zero_of_not_pos hlen)
    simp [openStep, hws, hrs, hini, hnil]

/-! ## Claim C1 -/

theorem subscribeList_singleton (initial : Bool) (D : List String) (x : String) :
    subscribeList initial D [x] = subscribeOne initial D x := by
  rw [subscribeList_cons]
  simp [subscribeList]

theorem subscribeOne_scoped_dominated (D : List String) (ev s T : String)
    (hfil : isFilterableTopic T = true) (hev : topicOf ev = T)
    (hsym : symbolOf ev = some s) (hbare : T ∈ D) :
    subscribeOne false D ev = (D, []) := by
  by_cases hevD : ev ∈ D
  · exact subscribeOne_skip D ev hevD
  · exact subscribeOne_scoped_skip false D ev s (Or.inl hevD)
      (by rw [hev]; exact hfil) hsym (by rw [hev]; exact hbare)

theorem keysFor_bare (D : List String) (T : String) (hT : T ∉ D) :
    keysFor T (lunion (D.filter (fun e => !(containsSub e (T ++ ":")))) [T]) = [T] := by
  apply filter_eq_single
  · exact nodup_lunion _ _
  · exact (mem_lunion _ _ _).2 (Or.inr (by simp))
  · intro e he
    rcases (mem_lunion _ _ _).1 he with heF | heT
    · have heD := (List.mem_filter.1 heF).1
      have hkeep := (List.mem_filter.1 heF).2
      constructor
      · intro hp
        rw [Bool.or_eq_true] at hp
        rcases hp with hp | hp
        · have heT : e = T := by simpa using hp
          exact absurd (heT ▸ heD) hT
        · rw [isScoped_containsSub T e hp] at hkeep
          cases hkeep
      · intro heq
        exact absurd (heq ▸ heD) hT
    · have heq : e = T := by simpa using heT
      subst heq
      simp

/-- Claim C1: for a filterable topic `T` in a connected, non-replay state,
a subscribe request for `T:symbol` while the bare key `T` is already in the
desired set emits no wire op and leaves the state unchanged; a subscribe
request for bare `T` (not yet desired) emits the single subscribe wire op
for `T`, and afterwards the desired set's entries for topic `T` are exactly
`[T]` (every symbol-scoped `T:s` key is purged and `T` added).  The wire op
serializes to `{"op":"subscribe","args":["T"]}`. -/
theorem c1_bare_key_dominance
    (st1 st2 : KitState) (T s ev : String)
    (hfil : isFilterableTopic T = true)
    (hc1 : wsConnectedB st1 = true) (hr1 : st1.initialConnection = false)
    (hev : topicOf ev = T) (hs : symbolOf ev = some s)
    (hbare : T ∈ st1.wsEvents)
    (hc2 : wsConnectedB st2 = true) (hr2 : st2.initialConnection = false)
    (hno : T ∉ st2.wsEvents) :
    step st1 (Ev.subscribe [ev]) = (st1, []) ∧
    (step st2 (Ev.subscribe [T])).2 = [Effect.send (WireOp.sub T)] ∧
    keysFor T ((step st2 (Ev.subscribe [T])).1.wsEvents) = [T] ∧
    (WireOp.sub T).wire = "\x7b\"op\":\"subscribe\",\"args\":[\"" ++ T ++ "\"]\x7d" := by
  have hf := filterable_facts T hfil
  have h2 : subscribeOne false st2.wsEvents T =
      (lunion (st2.wsEvents.filter (fun e => !(containsSub e (T ++ ":")))) [T],
        [WireOp.sub T]) := by
    have hb := subscribeOne_bare false st2.wsEvents T (Or.inl hno)
      (by rw [hf.1]; exact hfil) hf.2.1
    rw [hf.1] at hb
    simpa using hb
  have hsub2 : subscribeList st2.initialConnection st2.wsEvents [T] =
      (lunion (st2.wsEvents.filter (fun e => !(containsSub e (T ++ ":")))) [T],
        [WireOp.sub T]) := by
    rw [hr2, subscribeList_singleton, h2]
  refine ⟨?_, ?_, ?_, rfl⟩
  · have hsub1 : subscribeList st1.initialConnection st1.wsEvents [ev] =
        (st1.wsEvents, []) := by
      rw [hr1, subscribeList_singleton,
        subscribeOne_scoped_dominated st1.wsEvents ev s T hfil hev hs hbare]
    simp [step, hc1, hsub1]
  · simp [step, hc2, hsub2]
  · simp only [step, hc2, if_true]
    rw [hsub2]
    exact keysFor_bare st2.wsEvents T hno

/-- Concrete state for the C1 witness: connected, non-replay, bare
`orderbook` already desired. -/
def c1State1 : KitState :=
  { ws := some { readyState := RS.opened, handlers := [] }
    wsEvents := ["orderbook"]
    wsReconnect := true
    initialConnection := false
    wsEventListeners := none
    pendingTimers := 0 }

/-- Concrete state for the C1 witness: connected, non-replay, one
symbol-scoped `orderbook` key and one private key desired. -/
def c1State2 : KitState :=
  { ws := some { readyState := RS.opened, handlers := [] }
    wsEvents := ["orderbook:xht-usdt", "order"]
    wsReconnect := true
    initialConnection := false
    wsEventListeners := none
    pendingTimers := 0 }

/-- Witness for C1 at concrete inputs. -/
theorem c1_witness :
    step c1State1 (Ev.subscribe ["orderbook:xht-usdt"]) = (c1State1, []) ∧
    (step c1State2 (Ev.subscribe ["orderbook"])).2 =
      [Effect.send (WireOp.sub "orderbook")] ∧
    keysFor "orderbook" ((step c1State2 (Ev.subscribe ["orderbook"])).1.wsEvents) =
      ["orderbook"] ∧
    (WireOp.sub "orderbook").wire =
      "\x7b\"op\":\"subscribe\",\"args\":[\"" ++ "orderbook" ++ "\"]\x7d" :=
  c1_bare_key_dominance c1State1 c1State2 "orderbook" "xht-usdt" "orderbook:xht-usdt"
    (by decide) (by decide) (by decide) (by decide) (by decide) (by decide)
    (by decide) (by decide) (by decide)

/-! ## Claim C2 -/

/-- Connected state whose desired set holds the private key `usertrade`. -/
def c2State : KitState :=
  { ws := some { readyState := RS.opened, handlers := [] }
    wsEvents := ["usertrade"]
    wsReconnect := true
    initialConnection := false
    wsEventListeners := none
    pendingTimers := 0 }

/-- Claim C2 (evaluation at the failing input): `usertrade` is missing from
the `switch` of `HollaExKit.unsubscribe`, so unsubscribing `usertrade` while
it is present in the desired set emits no wire op and removes nothing —
although `subscribe` does support `usertrade` (third conjunct), so the key
can be added but never removed. -/
theorem c2_usertrade_eval :
    step c2State (Ev.unsubscribe ["usertrade"]) = (c2State, []) ∧
    "usertrade" ∈ c2State.wsEvents ∧
    subscribeOne false [] "usertrade" = (["usertrade"], [WireOp.sub "usertrade"]) := by
  refine ⟨by decide, by decide, by decide⟩

/-! ## Claim C3 -/

/-- A state whose socket is still CONNECTING (created by `connect`, `'open'`
not yet fired): `wsConnected()` is false here. -/
def c3Connecting : KitState :=
  { ws := some { readyState := RS.connecting, handlers := [] }
    wsEvents := []
    wsReconnect := true
    initialConnection := true
    wsEventListeners := none
    pendingTimers := 0 }

/-- Claim C3 counterexample: `disconnect()` called while the socket is in
the Connecting state throws `'Websocket not connected'` — refuting the
claim that disconnect succeeds from Connecting. -/
theorem c3_counterexample :
    step c3Connecting Ev.disconnect =
      (c3Connecting, [Effect.errRaised KitError.notConnected]) := by
  decide

/-- Claim C3 (amended): `disconnect` succeeds only in the Open state
(`wsConnected()`), where it clears `wsReconnect` and closes the socket
without raising; from every other state — including Connecting — it fails
with the not-connected error and leaves the state unchanged.  `subscribe`
and `unsubscribe` succeed only in the Open state and in every other state
fail with the not-connected error, leaving the state (in particular the
desired set) unchanged. -/
theorem c3_gating_amended (st stc : KitState) (evs : List String)
    (hOpen : wsConnectedB st = true) (hNot : wsConnectedB stc = false) :
    ((step st Ev.disconnect).2 = [Effect.closeSock] ∧
      (step st Ev.disconnect).1.wsReconnect = false) ∧
    step stc Ev.disconnect = (stc, [Effect.errRaised KitError.notConnected]) ∧
    step stc (Ev.subscribe evs) = (stc, [Effect.errRaised KitError.notConnected]) ∧
    step stc (Ev.unsubscribe evs) = (stc, [Effect.errRaised KitError.notConnected]) := by
  refine ⟨?_, ?_, ?_, ?_⟩
  · cases hws : st.ws with
    | none => simp [wsConnectedB, hws] at hOpen
    | some s => exact ⟨by simp [step, disconnectStep, hOpen, hws],
        by simp [step, disconnectStep, hOpen, hws]⟩
  · simp [step, disconnectStep, hNot]
  · simp [step, hNot]
  · simp [step, hNot]

/-- A connected (Open) state for the C3 witness. -/
def c3OpenState : KitState :=
  { ws := some { readyState := RS.opened, handlers := [] }
    wsEvents := ["trade"]
    wsReconnect := true
    initialConnection := false
    wsEventListeners := none
    pendingTimers := 0 }

/-- Witness for the amended C3 at concrete states. -/
theorem c3_witness :
    ((step c3OpenState Ev.disconnect).2 = [Effect.closeSock] ∧
      (step c3OpenState Ev.disconnect).1.wsReconnect = false) ∧
    step c3Connecting Ev.disconnect =
      (c3Connecting, [Effect.errRaised KitError.notConnected]) ∧
    step c3Connecting (Ev.subscribe ["trade"]) =
      (c3Connecting, [Effect.errRaised KitError.notConnected]) ∧
    step c3Connecting (Ev.unsubscribe ["trade"]) =
      (c3Connecting, [Effect.errRaised KitError.notConnected]) :=
  c3_gating_amended c3OpenState c3Connecting ["trade"] (by decide) (by decide)

/-! ## Claim C4 -/

/-- The failing trace for C4: a transport failure schedules a reconnect
timer; the caller reconnects by hand before the timer fires, the session
opens, and the caller disconnects.  The stale timer is still pending. -/
def c4Trace : List Ev :=
  [Ev.connect ["trade"], Ev.wsClose, Ev.connect ["trade"], Ev.wsOpen,
   Ev.disconnect, Ev.wsClose]

/-- The state reached after the C4 trace. -/
def c4After : KitState := (run initKitState c4Trace).1

/-- Claim C4 (evaluation at the failing input): after `disconnect()` the
connection is down (`wsConnected()` false, `wsReconnect` false) but the
reconnect timer armed by the earlier failure is still pending, and when it
fires it calls `connect(this.wsEvents)`, which re-arms `wsReconnect` and
opens a brand-new WebSocket — a reconnect attempt observed after
disconnect, contradicting the claim. -/
theorem c4_stale_timer_eval :
    wsConnectedB c4After = false ∧
    c4After.wsReconnect = false ∧
    c4After.pendingTimers = 1 ∧
    step c4After Ev.timerFire =
      ({ ws := some { readyState := RS.connecting, handlers := [] }
         wsEvents := ["trade"]
         wsReconnect := true
         initialConnection := true
         wsEventListeners := none
         pendingTimers := 0 }, [Effect.openSock]) := by
  refine ⟨by decide, by decide, by decide, by decide⟩

/-! ## Claim C5 -/

/-- Claim C5 counterexample: `connect` stores the caller's topic list in
`wsEvents` verbatim, so connecting with both the bare key and a
symbol-scoped key of the same filterable topic puts both into the desired
set simultaneously — refuting the unconditional invariant. -/
theorem c5_counterexample :
    hasClash ((run initKitState
      [Ev.connect ["orderbook", "orderbook:xht-usdt"]]).1).wsEvents = true := by
  decide

/-- Claim C5 (amended): starting from the initial state, after any sequence
of connect, subscribe, unsubscribe, open/close and reconnect-timer events in
which every explicit `connect` call's topic list itself contains no
bare/symbol-scoped pair for the same filterable topic, the desired set never
simultaneously holds the bare key `T` and a symbol-scoped key `T:s` of the
same filterable topic (the transitions themselves never introduce such a
clash; only `connect`'s verbatim seeding can). -/
theorem c5_invariant_amended (tr : List Ev) (h : goodTrace tr = true) :
    hasClash ((run initKitState tr).1).wsEvents = false :=
  hasClash_eq_false _
    (noClash_run tr initKitState (fun t _ htl => absurd htl (List.not_mem_nil t)) h)

/-- A well-formed trace exercising connect, replay, subscribe and
unsubscribe, for the C5 witness. -/
def c5Trace : List Ev :=
  [Ev.connect ["orderbook:xht-usdt"], Ev.wsOpen,
   Ev.subscribe ["trade:xht-btc", "orderbook"], Ev.unsubscribe ["trade:xht-btc"]]

/-- Witness for the amended C5 at a concrete trace. -/
theorem c5_witness :
    goodTrace c5Trace = true ∧
    hasClash ((run initKitState c5Trace).1).wsEvents = false :=
  ⟨by decide, c5_invariant_amended c5Trace (by decide)⟩

/-! ## Claim C6 -/

/-- Claim C6 counterexample: after `connect(['orderbook',
'orderbook:xht-usdt'])`, the connect-time replay emits only ONE subscribe
wire op — the symbol-scoped key's op is suppressed because the bare topic is
in the desired set (the bare-dominance check is not bypassed during replay)
— refuting "each key in the replay set produces its subscribe wire op".
The desired set itself is left unchanged by the replay. -/
theorem c6_counterexample :
    (step (run initKitState
        [Ev.connect ["orderbook", "orderbook:xht-usdt"]]).1 Ev.wsOpen).2 =
      [Effect.send (WireOp.sub "orderbook"),
       Effect.startHB pingMessage 60000 25000] ∧
    ((step (run initKitState
        [Ev.connect ["orderbook", "orderbook:xht-usdt"]]).1 Ev.wsOpen).1).wsEvents =
      ["orderbook", "orderbook:xht-usdt"] := by
  refine ⟨by decide, by decide⟩

/-- Claim C6 (amended): when the session opens after `connect(topics)` (and
likewise after an automatic reconnect, where the replay set is the current
desired set), every key of the replay set is processed with the outer
"already in DesiredSet" suppression bypassed; each key emits its subscribe
wire op per `replaySpecOp` — i.e. unconditionally for bare-filterable and
private keys, but a symbol-scoped key is still suppressed when its bare
topic is in the desired set, and unknown topics emit nothing — and the
replay leaves the desired set exactly equal to what it was before. -/
theorem c6_replay_amended (st : KitState) (s : Socket)
    (hws : st.ws = some s) (hrs : s.readyState = RS.connecting)
    (hini : st.initialConnection = true) :
    ((openStep st).1).wsEvents = st.wsEvents ∧
    (openStep st).2 =
      (st.wsEvents.filterMap (replaySpecOp st.wsEvents)).map Effect.send ++
        [Effect.startHB pingMessage 60000 25000] := by
  rw [openStep_eq st s hws hrs hini]
  exact ⟨rfl, rfl⟩

/-- Concrete pre-open state for the C6 witness: a replay set with a bare
filterable key, a scoped key it dominates, a private key with a suffix, and
an unknown topic. -/
def c6State : KitState :=
  { ws := some { readyState := RS.connecting, handlers := [] }
    wsEvents := ["orderbook", "orderbook:xht-usdt", "order:abc", "bogus"]
    wsReconnect := true
    initialConnection := true
    wsEventListeners := none
    pendingTimers := 0 }

/-- Witness for the amended C6 at a concrete state. -/
theorem c6_witness :
    ((openStep c6State).1).wsEvents = c6State.wsEvents ∧
    (openStep c6State).2 =
      (c6State.wsEvents.filterMap (replaySpecOp c6State.wsEvents)).map Effect.send ++
        [Effect.startHB pingMessage 60000 25000] :=
  c6_replay_amended c6State { readyState := RS.connecting, handlers := [] }
    (by decide) (by decide) (by decide)

/-! ## Claim C7 -/

/-- `n` transport-failure/reconnect cycles: the socket closes, the scheduled
reconnect timer fires (`connect(this.wsEvents)`), and the new socket opens. -/
def cycles : Nat → List Ev
  | 0 => []
  | n + 1 => Ev.wsClose :: Ev.timerFire :: Ev.wsOpen :: cycles n

theorem run_fst_cons (st : KitState) (e : Ev) (es : List Ev) :
    ((run st (e :: es)).1) = ((run (step st e).1 es).1) := rfl

theorem run_fst_append (st : KitState) (a b : List Ev) :
    ((run st (a ++ b)).1) = ((run (run st a).1 b).1) := by
  induction a generalizing st with
  | nil => rfl
  | cons e es ih =>
    rw [List.cons_append, run_fst_cons, ih, run_fst_cons]

theorem cycle_once (evs : List String) (hs : List Nat) (L : Option (List Nat))
    (ic : Bool) :
    (run { ws := some { readyState := RS.opened, handlers := hs }
           wsEvents := evs
           wsReconnect := true
           initialConnection := ic
           wsEventListeners := L
           pendingTimers := 0 }
         [Ev.wsClose, Ev.timerFire, Ev.wsOpen]).1 =
      { ws := some { readyState := RS.opened, handlers := hs }
        wsEvents := evs
        wsReconnect := true
        initialConnection := false
        wsEventListeners := some hs
        pendingTimers := 0 } := by
  rw [run_fst_cons]
  have e1 : (step
      { ws := some { readyState := RS.opened, handlers := hs }
        wsEvents := evs
        wsReconnect := true
        initialConnection := ic
        wsEventListeners := L
        pendingTimers := 0 } Ev.wsClose).1 =
      { ws := none
        wsEvents := evs
        wsReconnect := true
        initialConnection := ic
        wsEventListeners := some hs
        pendingTimers := 1 } := by
    simp [step, closeStep]
  rw [e1, run_fst_cons]
  have e2 : (step
      { ws := none
        wsEvents := evs
        wsReconnect := true
        initialConnection := ic
        wsEventListeners := some hs
        pendingTimers := 1 } Ev.timerFire).1 =
      { ws := some { readyState := RS.connecting, handlers := hs }
        wsEvents := evs
        wsReconnect := true
        initialConnection := true
        wsEventListeners := some hs
        pendingTimers := 0 } := by
    simp [step, timerStep, connectStep]
  rw [e2, run_fst_cons]
  have e3 : (step
      { ws := some { readyState := RS.connecting, handlers := hs }
        wsEvents := evs
        wsReconnect := true
        initialConnection := true
        wsEventListeners := some hs
        pendingTimers := 0 } Ev.wsOpen).1 =
      { ws := some { readyState := RS.opened, handlers := hs }
        wsEvents := evs
        wsReconnect := true
        initialConnection := false
        wsEventListeners := some hs
        pendingTimers := 0 } := by
    show (openStep _).1 = _
    rw [openStep_eq _ { readyState := RS.connecting, handlers := hs } rfl rfl rfl]
  rw [e3]
  rfl

theorem run_cycles_shape (hd : Nat) (n : Nat) :
    ∀ (evs : List String) (hs : List Nat) (L : Option (List Nat)) (ic : Bool),
      hd ∈ hs →
      ∃ L' ic',
        (run { ws := some { readyState := RS.opened, handlers := hs }
               wsEvents := evs
               wsReconnect := true
               initialConnection := ic
               wsEventListeners := L
               pendingTimers := 0 } (cycles n)).1 =
          { ws := some { readyState := RS.opened, handlers := hs }
            wsEvents := evs
            wsReconnect := true
            initialConnection := ic'
            wsEventListeners := L'
            pendingTimers := 0 } := by
  induction n with
  | zero =>
    intro evs hs L ic hmem
    exact ⟨L, ic, rfl⟩
  | succ n ih =>
    intro evs hs L ic hmem
    have hsplit : cycles (n + 1) = [Ev.wsClose, Ev.timerFire, Ev.wsOpen] ++ cycles n := rfl
    rw [hsplit, run_fst_append, cycle_once]
    exact ih evs hs (some hs) false hmem

/-- Claim C7: a handler registered once on the connection's listener table
right after the first `connect` still sits in the live socket's table — the
table inbound frames are dispatched to — after any number `n` of
transport-failure/reconnect cycles, with no re-registration: the `'close'`
handler stashes `ws._events` in `wsEventListeners` and `connect` transplants
it onto each new socket. -/
theorem c7_handlers_survive (n : Nat) (evs : List String) (hd : Nat) :
    hd ∈ receivers ((run initKitState
      (Ev.connect evs :: Ev.register hd :: Ev.wsOpen :: cycles n)).1) := by
  rw [run_fst_cons, run_fst_cons, run_fst_cons]
  have e1 : (step initKitState (Ev.connect evs)).1 =
      { ws := some { readyState := RS.connecting, handlers := [] }
        wsEvents := evs
        wsReconnect := true
        initialConnection := true
        wsEventListeners := none
        pendingTimers := 0 } := by
    simp [step, connectStep, initKitState]
  rw [e1]
  have e2 : (step
      { ws := some { readyState := RS.connecting, handlers := [] }
        wsEvents := evs
        wsReconnect := true
        initialConnection := true
        wsEventListeners := none
        pendingTimers := 0 } (Ev.register hd)).1 =
      { ws := some { readyState := RS.connecting, handlers := [hd] }
        wsEvents := evs
        wsReconnect := true
        initialConnection := true
        wsEventListeners := none
        pendingTimers := 0 } := by
    simp [step]
  rw [e2]
  have e3 : (step
      { ws := some { readyState := RS.connecting, handlers := [hd] }
        wsEvents := evs
        wsReconnect := true
        initialConnection := true
        wsEventListeners := none
        pendingTimers := 0 } Ev.wsOpen).1 =
      { ws := some { readyState := RS.opened, handlers := [hd] }
        wsEvents := evs
        wsReconnect := true
        initialConnection := false
        wsEventListeners := none
        pendingTimers := 0 } := by
    show (openStep _).1 = _
    rw [openStep_eq _ { readyState := RS.connecting, handlers := [hd] } rfl rfl rfl]
  rw [e3]
  obtain ⟨L', ic', hrun⟩ :=
    run_cycles_shape hd n evs [hd] none false (List.mem_singleton.2 rfl)
  rw [hrun]
  simp [receivers]

/-! ## Claim C8 -/

/-- Claim C8: when both an API key and an API secret are configured
(non-empty), `connect` computes `apiExpires = now + apiExpiresAfter`, calls
the signature primitive on `(secret, 'CONNECT', '/stream', apiExpires)`, and
appends exactly `api-key`, `api-signature` and `api-expires` to the stream
URL; when either credential is absent the bare stream URL is used; the
configured expiry window defaults to 60 seconds. -/
theorem c8_auth_url (sign : String → String → String → Nat → String)
    (wsUrl k sec k2 sec2 : String) (nowUnix expiresAfter : Nat)
    (hk : k ≠ "") (hs : sec ≠ "") (habs : k2 = "" ∨ sec2 = "") :
    buildWsUrl sign wsUrl k sec nowUnix expiresAfter =
      wsUrl ++ "?api-key=" ++ k ++ "&api-signature=" ++
        sign sec "CONNECT" "/stream" (nowUnix + expiresAfter) ++
        "&api-expires=" ++ toString (nowUnix + expiresAfter) ∧
    buildWsUrl sign wsUrl k2 sec2 nowUnix expiresAfter = wsUrl ∧
    defaultOr60 none = 60 := by
  refine ⟨?_, ?_, rfl⟩
  · simp [buildWsUrl, hk, hs]
  · rcases habs with h | h <;> simp [buildWsUrl, h]

/-- Witness for C8 at concrete credentials and a concrete signature
function. -/
theorem c8_witness :
    buildWsUrl (fun _ _ _ _ => "SIG") "wss://api.hollaex.com/stream" "key"
        "secret" 1700000000 60 =
      "wss://api.hollaex.com/stream" ++ "?api-key=" ++ "key" ++
        "&api-signature=" ++ "SIG" ++ "&api-expires=" ++
        toString (1700000000 + 60) ∧
    buildWsUrl (fun _ _ _ _ => "SIG") "wss://api.hollaex.com/stream" ""
        "secret" 1700000000 60 = "wss://api.hollaex.com/stream" ∧
    defaultOr60 none = 60 :=
  c8_auth_url (fun _ _ _ _ => "SIG") "wss://api.hollaex.com/stream" "key"
    "secret" "" "secret" 1700000000 60 (by decide) (by decide) (Or.inl rfl)

/-! ## Claim C9 -/

/-- Claim C9: on every session open the `'open'` handler starts the
keep-alive as its last effect, configured with the ping frame
`{"op":"ping"}`, `pingInterval` 25000 ms and `pingTimeout` 60000 ms; under
the heartbeat model, consecutive pings are 25 seconds apart and, when no
liveness response arrives in the window, the session is declared dead
exactly 60 seconds after the most recent ping; the teardown behaves as a
transport close, which (with `wsReconnect` still set) drops the socket and
schedules a reconnect timer — the reconnect failure path. -/
theorem c9_heartbeat (st : KitState) (s : Socket) (k lastPing : Nat)
    (hws : st.ws = some s) (hrs : s.readyState = RS.connecting)
    (hini : st.initialConnection = true) (hrc : st.wsReconnect = true) :
    ((openStep st).2).getLast? = some (Effect.startHB pingMessage 60000 25000) ∧
    pingMessage = "\x7b\"op\":\"ping\"\x7d" ∧
    hbPingAt kitHBConfig (k + 1) = hbPingAt kitHBConfig k + 25000 ∧
    hbTearDownAt kitHBConfig lastPing [] = some (lastPing + 60000) ∧
    (closeStep (openStep st).1).ws = none ∧
    (closeStep (openStep st).1).pendingTimers = st.pendingTimers + 1 := by
  rw [openStep_eq st s hws hrs hini]
  refine ⟨?_, rfl, ?_, ?_, ?_, ?_⟩
  · simp
  · simp [hbPingAt, kitHBConfig]
    ring
  · simp [hbTearDownAt, kitHBConfig]
  · simp [closeStep, hrc]
  · simp [closeStep, hrc]

/-- Concrete pre-open state for the C9 witness. -/
def c9State : KitState :=
  { ws := some { readyState := RS.connecting, handlers := [] }
    wsEvents := ["trade"]
    wsReconnect := true
    initialConnection := true
    wsEventListeners := none
    pendingTimers := 0 }

/-- Witness for C9 at a concrete state. -/
theorem c9_witness :
    ((openStep c9State).2).getLast? = some (Effect.startHB pingMessage 60000 25000) ∧
    pingMessage = "\x7b\"op\":\"ping\"\x7d" ∧
    hbPingAt kitHBConfig (0 + 1) = hbPingAt kitHBConfig 0 + 25000 ∧
    hbTearDownAt kitHBConfig 25000 [] = some (25000 + 60000) ∧
    (closeStep (openStep c9State).1).ws = none ∧
    (closeStep (openStep c9State).1).pendingTimers = c9State.pendingTimers + 1 :=
  c9_heartbeat c9State { readyState := RS.connecting, handlers := [] } 0 25000
    (by decide) (by decide) (by decide) (by decide)

/-! ## Claim C10 -/

/-- Claim C10: for a private/global topic `T` and an event key of the form
`T:suffix` not already desired, `subscribe` in a connected non-replay state
sends the wire op for bare `T` (the suffix is dropped on the wire) but adds
the full `T:suffix` string — not the bare `T` — to the desired set, so a
later `subscribe([T])` is not suppressed and emits a second subscribe wire
op for the same topic. -/
theorem c10_private_suffix (D : List String) (T ev : String)
    (hpriv : isPrivateTopic T = true) (hev : topicOf ev = T) (hne : ev ≠ T)
    (hevD : ev ∉ D) (hTD : T ∉ D) :
    subscribeOne false D ev = (lunion D [ev], [WireOp.sub T]) ∧
    ev ∈ lunion D [ev] ∧
    T ∉ lunion D [ev] ∧
    (subscribeOne false (lunion D [ev]) T).2 = [WireOp.sub T] := by
  have hpf := private_facts T hpriv
  have hTnot : T ∉ lunion D [ev] := by
    intro hT
    rcases (mem_lunion _ _ _).1 hT with h | h
    · exact hTD h
    · have hTe : T = ev := by simpa using h
      exact hne hTe.symm
  refine ⟨?_, (mem_lunion _ _ _).2 (Or.inr (by simp)), hTnot, ?_⟩
  · have h1 := subscribeOne_private false D ev (Or.inl hevD)
      (by rw [hev]; exact hpf.2.2) (by rw [hev]; exact hpriv)
    rw [hev] at h1
    simpa using h1
  · have h2 := subscribeOne_private false (lunion D [ev]) T (Or.inl hTnot)
      (by rw [hpf.1]; exact hpf.2.2) (by rw [hpf.1]; exact hpriv)
    rw [hpf.1] at h2
    rw [h2]

/-- Witness for C10 at concrete inputs. -/
theorem c10_witness :
    subscribeOne false [] "order:abc" = (lunion [] ["order:abc"], [WireOp.sub "order"]) ∧
    "order:abc" ∈ lunion [] ["order:abc"] ∧
    "order" ∉ lunion [] ["order:abc"] ∧
    (subscribeOne false (lunion [] ["order:abc"]) "order").2 = [WireOp.sub "order"] :=
  c10_private_suffix ([] : List String) "order" "order:abc" (by decide) (by decide) (by decide)
    (by decide) (by decide)

end Hollaex
